import Mathlib

/-
Verification development for the txwatch transaction-monitoring engine
(src/internal/etx/etx.go and the main-package HTTP surface).

The Go code is shallowly embedded:
  * `Transaction` mirrors the persisted record (the gorm.Model bookkeeping
    columns are irrelevant to every property and are omitted).
  * The database is a `List Transaction`; GORM `Updates`/`Update` calls
    become field-wise updates at the record's `id`.
  * The result of the two chain calls made inside one `CheckSuccess` pass
    (TransactionByHash and TransactionReceipt) is abstracted into a
    `ChainResult`: the pass inspects exactly one of the four outcomes.
  * The `CHECKS_THRESHOLD` environment variable is an `Option Int`:
    `none` models an absent/unparseable value (strconv.Atoi error, upon
    which ChecksThreshold returns without mutating the record).
  * Go `int` is modelled as `Int`; receipt `Status` (uint64) as `Nat`.
-/

namespace Txwatch

/-- Embeds the Go struct `Transaction` (etx.go lines 27-38): the record
fields that the engine reads or writes. `blockchain` is the logical chain
name, `metadata` the opaque string map (as an association list). -/
structure Transaction where
  id : String
  blockchain : String
  metadata : List (String × String)
  monitoring : Bool
  pending : Bool
  checks : Int
  success : Bool
  reviewed : Bool
  error : String
  deriving DecidableEq, Repr

/-- Outcome of the chain queries one `CheckSuccess` pass performs:
`txErr` is a TransactionByHash error, `stillPending` is isPending = true,
`receiptErr` is a TransactionReceipt error, and `mined status` is a
receipt carrying the given status code. -/
inductive ChainResult where
  | txErr (msg : String)
  | stillPending
  | receiptErr (msg : String)
  | mined (status : Nat)
  deriving DecidableEq, Repr

/-- Embeds `GetBlockchainClient` (etx.go lines 54-60): the registry is the
set of configured chain names; a miss returns the fixed error string. -/
def GetBlockchainClient (clients : List String) (name : String) : Except String Unit :=
  if clients.contains name then Except.ok () else Except.error "blockchain client not found"

/-- Embeds `Transaction.ChecksThreshold` (etx.go lines 64-80): when the
threshold parses and `checks` exceeds it, force the abandonment fields;
when `CHECKS_THRESHOLD` is absent or unparseable (`none`) the method
returns with no mutation. -/
def ChecksThreshold (threshold : Option Int) (t : Transaction) : Transaction :=
  match threshold with
  | none => t
  | some sc =>
      if t.checks > sc then
        { t with error := "exceeded checks threshold", monitoring := false,
                 pending := false, success := false }
      else t

/-- The partial-update map built in `Transaction.Save` (etx.go lines 90-96):
exactly the columns success, pending, error, monitoring, checks of the
in-memory record `t` are written onto the stored row `stored`. -/
def saveUpdates (t stored : Transaction) : Transaction :=
  { stored with success := t.success, pending := t.pending, error := t.error,
                monitoring := t.monitoring, checks := t.checks }

/-- Embeds `Transaction.Save` (etx.go lines 84-99) as it acts on the
in-memory record: ChecksThreshold runs on the receiver, and the resulting
record is the field set handed to `Updates`. Returns that record (both the
mutated receiver and the persisted write are this value). -/
def Save (threshold : Option Int) (t : Transaction) : Transaction :=
  ChecksThreshold threshold t

/-- Result of one `CheckSuccess` pass: the mutated in-memory record, the
field set persisted by the `Save` call of the taken branch (`none` when the
branch performs no Save), and the error the method returns (`none` for a
nil return). -/
structure PassResult where
  final : Transaction
  write : Option Transaction
  err : Option String
  deriving DecidableEq, Repr

/-- Embeds `Transaction.CheckSuccess` (etx.go lines 103-147). The pass
increments `checks`, resolves the chain client (aborting with the
not-found error before any further mutation or Save), then branches on the
chain outcome exactly as the Go code does; every branch that persists does
so through `Save`, i.e. after `ChecksThreshold`. -/
def CheckSuccess (clients : List String) (threshold : Option Int)
    (res : ChainResult) (t : Transaction) : PassResult :=
  let t1 : Transaction := { t with checks := t.checks + 1 }
  if clients.contains t1.blockchain then
    match res with
    | ChainResult.txErr msg =>
        let w := Save threshold { t1 with pending := false, monitoring := false, error := msg }
        ⟨w, some w, some msg⟩
    | ChainResult.stillPending =>
        let w := Save threshold { t1 with pending := true, monitoring := true }
        ⟨w, some w, none⟩
    | ChainResult.receiptErr msg =>
        let w := Save threshold { t1 with pending := false, monitoring := false, error := msg }
        ⟨w, some w, some msg⟩
    | ChainResult.mined status =>
        let t2 : Transaction := { t1 with pending := false, monitoring := false }
        let t3 : Transaction :=
          if status > 0 then { t2 with success := true }
          else { t2 with success := false, error := "failure" }
        let w := Save threshold t3
        ⟨w, some w, none⟩
  else
    ⟨t1, none, some "blockchain client not found"⟩

/-- The stored row after one pass over the record `t` loaded from the
store: when the pass persisted a write, the row receives exactly the five
`saveUpdates` columns; when it did not (client not found), the row is
untouched. -/
def passStored (clients : List String) (threshold : Option Int)
    (res : ChainResult) (t : Transaction) : Transaction :=
  match (CheckSuccess clients threshold res t).write with
  | some w => saveUpdates w t
  | none => t

/-- Applies one persisted write `w` to the store: every row whose `id`
matches receives the five updated columns (the GORM
`DB.Find(&Transaction\x7bID: t.ID\x7d).Updates(ut)` in Save). -/
def storeUpdate (st : List Transaction) (w : Transaction) : List Transaction :=
  st.map fun r => if r.id = w.id then saveUpdates w r else r

/-- Embeds `Transaction.New` (etx.go lines 166-177): the only field the
method sets before `DB.Create` is `Monitoring = true`; everything else is
whatever the decoded request carried. -/
def NewRecord (t : Transaction) : Transaction :=
  { t with monitoring := true }

/-- Embeds `Transaction.SetReviewed` (etx.go lines 190-197): a single
column update of `reviewed` at the record's id. -/
def SetReviewed (i : String) (v : Bool) (st : List Transaction) : List Transaction :=
  st.map fun r => if r.id = i then { r with reviewed := v } else r

/-- Embeds `MonitoredTransactions` (etx.go lines 201-214). The Go code
passes the struct condition `&Transaction\x7bMonitoring: true, Reviewed: false\x7d`
to `DB.Find`; GORM builds conditions only from the non-zero fields of a
struct condition, so `Reviewed: false` (the zero value of bool) is
dropped and the executed query filters on `monitoring = true` alone. -/
def MonitoredTransactions (st : List Transaction) : List Transaction :=
  st.filter fun r => r.monitoring

/-- The values the sweep workers actually operate on, under Go 1.15 loop
semantics (the Dockerfile builds with golang:1.15). The send loop in
`CheckMonitoredTransactions` (etx.go lines 239-241) is
`for _, t := range txs \x7b tin <- &t \x7d`: before Go 1.22 the loop variable
`t` is a single variable reused by every iteration, so every value sent on
`tin` is the address of that one variable. Under the schedule in which the
send loop completes before any worker dereferences its pointer, each of
the N dereferences observes the final value of the loop variable, i.e. the
last element of the snapshot. -/
def dispatchedValues (txs : List Transaction) : List Transaction :=
  match txs.getLast? with
  | none => []
  | some last => txs.map fun _ => last

/-- One worker pass at store level: run `CheckSuccess` on the snapshot
value `t` and apply its persisted write (if any) to the store. -/
def runPass (clients : List String) (threshold : Option Int)
    (res : String → ChainResult) (st : List Transaction) (t : Transaction) : List Transaction :=
  match (CheckSuccess clients threshold (res t.id) t).write with
  | some w => storeUpdate st w
  | none => st

/-- Embeds `CheckMonitoredTransactions` (etx.go lines 226-247) at store
level, under the Go 1.15 aliased-loop-variable schedule of
`dispatchedValues`: the sweep snapshots the candidate set, dispatches the
(aliased) values, and each completed pass lands its write in the store.
`res` gives the chain outcome per transaction id. -/
def CheckMonitoredTransactions (clients : List String) (threshold : Option Int)
    (res : String → ChainResult) (st : List Transaction) : List Transaction :=
  (dispatchedValues (MonitoredTransactions st)).foldl (runPass clients threshold res) st

/-- An HTTP response: status code and body text. -/
structure HttpResponse where
  status : Nat
  body : String
  deriving DecidableEq, Repr

/-- Embeds `HandleNewTransaction` (main package, etx.go part 2 lines
298-326): `decoded` is the outcome of reading and JSON-decoding the body,
`createErr` the outcome of `DB.Create` inside `New`. Decode or create
failure responds 400 with the error text and stores nothing; success runs
`New` (which forces `monitoring = true`) and responds 200 with an empty
body. -/
def HandleNewTransaction (decoded : Except String Transaction)
    (createErr : Option String) (st : List Transaction) :
    HttpResponse × List Transaction :=
  match decoded with
  | Except.error msg => (⟨400, msg⟩, st)
  | Except.ok t =>
      match createErr with
      | some msg => (⟨400, msg⟩, st)
      | none => (⟨200, ""⟩, st ++ [NewRecord t])

/-- Embeds `Paginate` (main package): inputs are the results of
`strconv.Atoi` on the `page` and `pageSize` form values (absent or
unparseable values yield 0, as Atoi returns 0 alongside its error).
Returns (offset, limit). -/
def Paginate (page pageSize : Int) : Int × Int :=
  let page := if page = 0 then 1 else page
  let pageSize := if pageSize > 100 then 100 else if pageSize ≤ 0 then 10 else pageSize
  ((page - 1) * pageSize, pageSize)

/-- Flag discipline the engine maintains on records it creates cleanly and
then evolves itself: a successful record is terminal (not monitored, not
pending, empty error), and a monitored record carries no error text. -/
def GoodFlags (t : Transaction) : Prop :=
  (t.success = true → t.monitoring = false ∧ t.pending = false ∧ t.error = "") ∧
  (t.monitoring = true → t.error = "")

/-- Stored records reachable through the engine itself: creation via `New`
from a request that carries only the documented fields (so success,
pending and error are the Go zero values), one sweep pass (`CheckSuccess`
followed by its `Save`, applied to a record the candidate query selected,
i.e. with monitoring = true), and the mark-reviewed column update. -/
inductive Reachable (clients : List String) (threshold : Option Int) : Transaction → Prop where
  | new (t : Transaction) (hs : t.success = false) (hp : t.pending = false)
      (he : t.error = "") : Reachable clients threshold (NewRecord t)
  | sweep (t : Transaction) (res : ChainResult) (ht : Reachable clients threshold t)
      (hm : t.monitoring = true) :
      Reachable clients threshold (passStored clients threshold res t)
  | review (t : Transaction) (v : Bool) (ht : Reachable clients threshold t) :
      Reachable clients threshold { t with reviewed := v }

/-! Helper lemmas about `ChecksThreshold` and the persisted field sets. -/

theorem checksThreshold_checks (th : Option Int) (t : Transaction) :
    (ChecksThreshold th t).checks = t.checks := by
  cases th with
  | none => rfl
  | some sc =>
      simp only [ChecksThreshold]
      split <;> rfl

theorem checksThreshold_over {sc : Int} {t : Transaction} (h : t.checks > sc) :
    ChecksThreshold (some sc) t =
      { t with error := "exceeded checks threshold", monitoring := false,
               pending := false, success := false } := by
  simp [ChecksThreshold, h]

theorem checksThreshold_under {sc : Int} {t : Transaction} (h : ¬ t.checks > sc) :
    ChecksThreshold (some sc) t = t := by
  simp [ChecksThreshold, h]

theorem checksThreshold_abandoned {sc : Int} (t : Transaction)
    (hc : (ChecksThreshold (some sc) t).checks > sc) :
    (ChecksThreshold (some sc) t).error = "exceeded checks threshold" ∧
    (ChecksThreshold (some sc) t).monitoring = false ∧
    (ChecksThreshold (some sc) t).pending = false ∧
    (ChecksThreshold (some sc) t).success = false := by
  rw [checksThreshold_checks] at hc
  rw [checksThreshold_over hc]
  exact ⟨rfl, rfl, rfl, rfl⟩

/-- C1: on every persisted sweep-pass write (the Save invoked by each
branch of CheckSuccess), if the written record's checks counter exceeds
the configured threshold, then the persisted field set carries the
abandonment values: error = "exceeded checks threshold", monitoring =
false, pending = false, success = false, regardless of which chain result
produced the write. -/
theorem abandonment_precedence (clients : List String) (sc : Int) (res : ChainResult)
    (t w : Transaction) (hw : (CheckSuccess clients (some sc) res t).write = some w)
    (hc : w.checks > sc) :
    w.error = "exceeded checks threshold" ∧ w.monitoring = false ∧
    w.pending = false ∧ w.success = false := by
  cases res <;> simp only [CheckSuccess, Save] at hw <;> split at hw <;>
    first
      | (injection hw with h
         subst h
         exact checksThreshold_abandoned _ hc)
      | exact Option.noConfusion hw

theorem abandonment_precedence_witness :
    (CheckSuccess ["eth"] (some 5) ChainResult.stillPending
        ⟨"0xabc", "eth", [], true, false, 6, false, false, ""⟩).write =
      some ⟨"0xabc", "eth", [], false, false, 7, false, false, "exceeded checks threshold"⟩ ∧
    (⟨"0xabc", "eth", [], false, false, 7, false, false,
        "exceeded checks threshold"⟩ : Transaction).checks > 5 ∧
    ((⟨"0xabc", "eth", [], false, false, 7, false, false,
        "exceeded checks threshold"⟩ : Transaction).error = "exceeded checks threshold" ∧
     (⟨"0xabc", "eth", [], false, false, 7, false, false,
        "exceeded checks threshold"⟩ : Transaction).monitoring = false ∧
     (⟨"0xabc", "eth", [], false, false, 7, false, false,
        "exceeded checks threshold"⟩ : Transaction).pending = false ∧
     (⟨"0xabc", "eth", [], false, false, 7, false, false,
        "exceeded checks threshold"⟩ : Transaction).success = false) :=
  ⟨by decide, by decide,
    abandonment_precedence ["eth"] 5 ChainResult.stillPending
      ⟨"0xabc", "eth", [], true, false, 6, false, false, ""⟩
      ⟨"0xabc", "eth", [], false, false, 7, false, false, "exceeded checks threshold"⟩
      (by decide) (by decide)⟩

/-- C7: a pass over a record whose chain name is not in the client
registry returns the fixed "blockchain client not found" error, increments
checks, mutates no other field, and performs no persisted write; by
contrast every pass that does resolve a client performs a write, so the
configuration miss is surfaced distinctly from chain network errors. -/
theorem client_not_found_pass (clients : List String) (threshold : Option Int)
    (res : ChainResult) (t : Transaction)
    (h : clients.contains t.blockchain = false) :
    CheckSuccess clients threshold res t =
      ⟨{ t with checks := t.checks + 1 }, none, some "blockchain client not found"⟩ ∧
    ∀ t2 res2, clients.contains t2.blockchain = true →
      (CheckSuccess clients threshold res2 t2).write.isSome = true := by
  have h' : t.blockchain ∉ clients := by simpa using h
  constructor
  · simp [CheckSuccess, h']
  · intro t2 res2 h2
    have h2' : t2.blockchain ∈ clients := by simpa using h2
    cases res2 <;> simp [CheckSuccess, h2']

theorem client_not_found_pass_witness :
    (["eth"] : List String).contains "unknown" = false ∧
    CheckSuccess ["eth"] (some 5) (ChainResult.mined 1)
        ⟨"0xdef", "unknown", [], true, true, 3, false, false, ""⟩ =
      ⟨⟨"0xdef", "unknown", [], true, true, 4, false, false, ""⟩, none,
        some "blockchain client not found"⟩ :=
  ⟨by decide,
    (client_not_found_pass ["eth"] (some 5) (ChainResult.mined 1)
      ⟨"0xdef", "unknown", [], true, true, 3, false, false, ""⟩ (by decide)).1⟩

/-- C9: pagination normalization — pageSize above 100 is clamped to 100, a
pageSize of 0 or less (the Atoi result for absent/unparseable input)
becomes 10, a page of 0 becomes 1 (offset 0), and the offset is
(page - 1) * pageSize over the normalized values. -/
theorem paginate_normalization (p ps : Int) :
    (ps > 100 → (Paginate p ps).2 = 100) ∧
    (ps ≤ 0 → (Paginate p ps).2 = 10) ∧
    (0 < ps → ps ≤ 100 → (Paginate p ps).2 = ps) ∧
    (p = 0 → (Paginate p ps).1 = 0) ∧
    (p ≠ 0 → (Paginate p ps).1 = (p - 1) * (Paginate p ps).2) := by
  by_cases h0 : p = 0 <;> by_cases h1 : ps > 100 <;> by_cases h2 : ps ≤ 0 <;>
    simp [Paginate, h0, h1, h2] <;> omega

theorem paginate_normalization_witness :
    ((500 : Int) > 100 ∧ (Paginate 0 500).2 = 100) ∧ (Paginate 0 500).1 = 0 :=
  ⟨⟨by decide, (paginate_normalization 0 500).1 (by decide)⟩,
    (paginate_normalization 0 500).2.2.2.1 rfl⟩

theorem storeUpdate_frame (st : List Transaction) (w : Transaction) :
    (storeUpdate st w).map (fun r => (r.id, r.reviewed, r.metadata)) =
      st.map (fun r => (r.id, r.reviewed, r.metadata)) := by
  induction st with
  | nil => rfl
  | cons r rs ih =>
      simp only [storeUpdate, List.map_cons] at ih ⊢
      refine congrArg₂ List.cons ?_ ih
      by_cases h : r.id = w.id <;> simp [h, saveUpdates]

theorem runPass_frame (clients : List String) (threshold : Option Int)
    (res : String → ChainResult) (st : List Transaction) (t : Transaction) :
    (runPass clients threshold res st t).map (fun r => (r.id, r.reviewed, r.metadata)) =
      st.map (fun r => (r.id, r.reviewed, r.metadata)) := by
  unfold runPass
  split
  · exact storeUpdate_frame st _
  · rfl

theorem foldl_runPass_frame (clients : List String) (threshold : Option Int)
    (res : String → ChainResult) (L : List Transaction) (st : List Transaction) :
    ((L.foldl (runPass clients threshold res) st).map
        (fun r => (r.id, r.reviewed, r.metadata))) =
      st.map (fun r => (r.id, r.reviewed, r.metadata)) := by
  induction L generalizing st with
  | nil => rfl
  | cons t ts ih => rw [List.foldl_cons, ih, runPass_frame]

/-- C10: frame property of sweep writes — the field set persisted by Save
assigns exactly success, pending, error, monitoring and checks from the
in-memory record, while the stored row keeps its id, reviewed flag and
metadata; consequently a whole sweep leaves id, reviewed and metadata of
every stored row unchanged. -/
theorem sweep_write_frame (clients : List String) (threshold : Option Int)
    (res : String → ChainResult) (st : List Transaction) :
    (∀ w r : Transaction,
      (saveUpdates w r).success = w.success ∧ (saveUpdates w r).pending = w.pending ∧
      (saveUpdates w r).error = w.error ∧ (saveUpdates w r).monitoring = w.monitoring ∧
      (saveUpdates w r).checks = w.checks ∧ (saveUpdates w r).reviewed = r.reviewed ∧
      (saveUpdates w r).metadata = r.metadata ∧ (saveUpdates w r).id = r.id) ∧
    (CheckMonitoredTransactions clients threshold res st).map
        (fun r => (r.id, r.reviewed, r.metadata)) =
      st.map (fun r => (r.id, r.reviewed, r.metadata)) :=
  ⟨fun _ _ => ⟨rfl, rfl, rfl, rfl, rfl, rfl, rfl, rfl⟩,
    foldl_runPass_frame clients threshold res _ st⟩

/-- C8: idempotence of mark-reviewed — applying the SetReviewed column
update twice with the same id and value leaves the store exactly as one
application does. -/
theorem setReviewed_idempotent (i : String) (v : Bool) (st : List Transaction) :
    SetReviewed i v (SetReviewed i v st) = SetReviewed i v st := by
  induction st with
  | nil => rfl
  | cons r rs ih =>
      simp only [SetReviewed, List.map_cons] at ih ⊢
      refine congrArg₂ List.cons ?_ ih
      by_cases h : r.id = i <;> simp [h]

/-- C5 as stated is false: a successful receipt does not clear a
pre-existing error text. The record with checks = 0 ≤ threshold 5 and
error = "prior failure", on a pass with isPending = false and receipt
status 1 > 0, ends with success = true but error = "prior failure" ≠ "". -/
theorem success_pass_counterexample :
    (⟨"0xabc", "eth", [], true, false, 0, false, false, "prior failure"⟩ :
        Transaction).checks ≤ 5 ∧
    (CheckSuccess ["eth"] (some 5) (ChainResult.mined 1)
        ⟨"0xabc", "eth", [], true, false, 0, false, false, "prior failure"⟩).final.success
      = true ∧
    ¬ (CheckSuccess ["eth"] (some 5) (ChainResult.mined 1)
        ⟨"0xabc", "eth", [], true, false, 0, false, false, "prior failure"⟩).final.error
      = "" := by
  decide

/-- C5 amended: for a record whose chain is registered, whose error field
is empty before the pass, and whose incremented checks counter stays at or
below the threshold, a pass with isPending = false and receipt status > 0
ends with success = true, pending = false, monitoring = false, checks
incremented by one and error = "", and that record is the persisted
write. -/
theorem success_pass (clients : List String) (sc : Int) (status : Nat)
    (t : Transaction) (hcl : clients.contains t.blockchain = true)
    (herr : t.error = "") (hck : t.checks + 1 ≤ sc) (hst : 0 < status) :
    (CheckSuccess clients (some sc) (ChainResult.mined status) t).final =
      { t with checks := t.checks + 1, pending := false, monitoring := false,
               success := true } ∧
    (CheckSuccess clients (some sc) (ChainResult.mined status) t).final.error = "" ∧
    (CheckSuccess clients (some sc) (ChainResult.mined status) t).write =
      some ((CheckSuccess clients (some sc) (ChainResult.mined status) t).final) := by
  have h' : t.blockchain ∈ clients := by simpa using hcl
  have hlt : ¬ ((t.checks + 1) > sc) := by omega
  refine ⟨?_, ?_, ?_⟩ <;>
    simp [CheckSuccess, Save, ChecksThreshold, h', hst, hlt, herr]

theorem success_pass_witness :
    ((["eth"] : List String).contains "eth" = true ∧ ("" : String) = "" ∧
      (0 : Int) + 1 ≤ 5 ∧ (0 : Nat) < 1) ∧
    ((CheckSuccess ["eth"] (some 5) (ChainResult.mined 1)
        ⟨"0xabc", "eth", [], true, false, 0, false, false, ""⟩).final =
      ⟨"0xabc", "eth", [], false, false, 1, true, false, ""⟩ ∧
     (CheckSuccess ["eth"] (some 5) (ChainResult.mined 1)
        ⟨"0xabc", "eth", [], true, false, 0, false, false, ""⟩).final.error = "" ∧
     (CheckSuccess ["eth"] (some 5) (ChainResult.mined 1)
        ⟨"0xabc", "eth", [], true, false, 0, false, false, ""⟩).write =
      some ((CheckSuccess ["eth"] (some 5) (ChainResult.mined 1)
        ⟨"0xabc", "eth", [], true, false, 0, false, false, ""⟩).final)) :=
  ⟨⟨by decide, rfl, by decide, by decide⟩,
    success_pass ["eth"] 5 1 ⟨"0xabc", "eth", [], true, false, 0, false, false, ""⟩
      (by decide) rfl (by decide) (by decide)⟩

/-- C6 as stated is false: New forces monitoring = true but does not reset
checks, so a decoded request body carrying checks = 7 is stored with
checks = 7, not 0. -/
theorem new_transaction_counterexample :
    ¬ ((NewRecord ⟨"0xa", "eth", [], false, false, 7, false, false, ""⟩).monitoring = true ∧
       (NewRecord ⟨"0xa", "eth", [], false, false, 7, false, false, ""⟩).checks = 0) := by
  decide

/-- C6 amended: a record created through POST /transaction is stored with
monitoring = true and with the checks value carried by the decoded request
body (0 when the body omits it, as the Go zero value); success responds
200 with an empty body, and decode or create failures respond 400 with
the error text, storing nothing. -/
theorem new_transaction_behavior (t : Transaction) (st : List Transaction) (msg : String) :
    HandleNewTransaction (Except.ok t) none st = (⟨200, ""⟩, st ++ [NewRecord t]) ∧
    (NewRecord t).monitoring = true ∧
    (NewRecord t).checks = t.checks ∧
    HandleNewTransaction (Except.error msg) none st = (⟨400, msg⟩, st) ∧
    HandleNewTransaction (Except.ok t) (some msg) st = (⟨400, msg⟩, st) :=
  ⟨rfl, rfl, rfl, rfl, rfl⟩

theorem goodFlags_saveUpdates {w : Transaction} (t : Transaction) (hw : GoodFlags w) :
    GoodFlags (saveUpdates w t) := hw

theorem checksThreshold_goodFlags (th : Option Int) {t : Transaction} (h : GoodFlags t) :
    GoodFlags (ChecksThreshold th t) := by
  cases th with
  | none => exact h
  | some sc =>
      by_cases hc : t.checks > sc
      · rw [checksThreshold_over hc]
        exact ⟨fun hs => by simp at hs, fun hmn => by simp at hmn⟩
      · rw [checksThreshold_under hc]
        exact h

theorem goodFlags_pass (clients : List String) (threshold : Option Int) (res : ChainResult)
    (t : Transaction) (hg : GoodFlags t) (hm : t.monitoring = true) :
    GoodFlags (passStored clients threshold res t) := by
  have te : t.error = "" := hg.2 hm
  have ts : t.success = false := by
    cases hs : t.success with
    | false => rfl
    | true =>
        have hmf := (hg.1 hs).1
        rw [hmf] at hm
        exact Bool.noConfusion hm
  cases hmem : clients.contains t.blockchain with
  | true =>
      cases res with
      | txErr msg =>
          simp only [passStored, CheckSuccess, Save, hmem, if_true]
          exact goodFlags_saveUpdates t (checksThreshold_goodFlags threshold
            ⟨fun hs => absurd hs (by simp [ts]), fun hmn => by simp at hmn⟩)
      | stillPending =>
          simp only [passStored, CheckSuccess, Save, hmem, if_true]
          exact goodFlags_saveUpdates t (checksThreshold_goodFlags threshold
            ⟨fun hs => absurd hs (by simp [ts]), fun _ => te⟩)
      | receiptErr msg =>
          simp only [passStored, CheckSuccess, Save, hmem, if_true]
          exact goodFlags_saveUpdates t (checksThreshold_goodFlags threshold
            ⟨fun hs => absurd hs (by simp [ts]), fun hmn => by simp at hmn⟩)
      | mined status =>
          simp only [passStored, CheckSuccess, Save, hmem, if_true]
          by_cases hst : 0 < status
          · rw [if_pos hst]
            exact goodFlags_saveUpdates t (checksThreshold_goodFlags threshold
              ⟨fun _ => ⟨rfl, rfl, te⟩, fun hmn => by simp at hmn⟩)
          · rw [if_neg hst]
            exact goodFlags_saveUpdates t (checksThreshold_goodFlags threshold
              ⟨fun hs => by simp at hs, fun hmn => by simp at hmn⟩)
  | false =>
      simp only [passStored, CheckSuccess, hmem]
      exact hg

theorem reachable_goodFlags (clients : List String) (threshold : Option Int)
    (t : Transaction) (h : Reachable clients threshold t) : GoodFlags t := by
  induction h with
  | new t hs hp he =>
      exact ⟨fun h1 => absurd h1 (by simp [NewRecord, hs]), fun _ => he⟩
  | sweep t res ht hm ih => exact goodFlags_pass clients threshold res t ih hm
  | review t v ht ih => exact ih

/-- C3 as stated is false: New forces monitoring = true but preserves every
other field of the decoded request, so a POST /transaction body carrying
success = true, pending = true and a non-empty error is stored violating
success → (pending = false ∧ error = ""). -/
theorem success_invariant_counterexample :
    ¬ ((NewRecord ⟨"0xbad", "eth", [], false, true, 0, true, false, "boom"⟩).success = true →
       (NewRecord ⟨"0xbad", "eth", [], false, true, 0, true, false, "boom"⟩).pending = false ∧
       (NewRecord ⟨"0xbad", "eth", [], false, true, 0, true, false, "boom"⟩).error = "") := by
  decide

/-- C3 amended: for every record created via New from a request carrying
only the documented fields (success, pending and error at their zero
values) and evolved only by sweep passes on records the candidate query
selected and by mark-reviewed updates, success = true implies
pending = false and error = "". -/
theorem success_invariant (clients : List String) (threshold : Option Int)
    (t : Transaction) (h : Reachable clients threshold t) (hs : t.success = true) :
    t.pending = false ∧ t.error = "" :=
  ⟨((reachable_goodFlags clients threshold t h).1 hs).2.1,
    ((reachable_goodFlags clients threshold t h).1 hs).2.2⟩

theorem success_invariant_witness :
    (passStored ["eth"] (some 5) (ChainResult.mined 1)
        (NewRecord ⟨"0xabc", "eth", [], false, false, 0, false, false, ""⟩)).success = true ∧
    ((passStored ["eth"] (some 5) (ChainResult.mined 1)
        (NewRecord ⟨"0xabc", "eth", [], false, false, 0, false, false, ""⟩)).pending = false ∧
     (passStored ["eth"] (some 5) (ChainResult.mined 1)
        (NewRecord ⟨"0xabc", "eth", [], false, false, 0, false, false, ""⟩)).error = "") :=
  ⟨by decide,
    success_invariant ["eth"] (some 5) _
      (Reachable.sweep (NewRecord ⟨"0xabc", "eth", [], false, false, 0, false, false, ""⟩)
        (ChainResult.mined 1)
        (Reachable.new ⟨"0xabc", "eth", [], false, false, 0, false, false, ""⟩ rfl rfl rfl)
        rfl)
      (by decide)⟩

/-- C2: under Go 1.15 loop semantics the send loop of
CheckMonitoredTransactions queues the address of a single reused loop
variable, so with the send loop completing first, a two-record snapshot of
distinct records dispatches the last record to both worker passes: the
first record is processed zero times and the second twice, refuting
"each record of the snapshot is dispatched exactly once". -/
theorem sweep_dispatch_aliasing :
    dispatchedValues
        [⟨"0xaaa", "eth", [], true, false, 0, false, false, ""⟩,
         ⟨"0xbbb", "eth", [], true, false, 0, false, false, ""⟩] =
      [⟨"0xbbb", "eth", [], true, false, 0, false, false, ""⟩,
       ⟨"0xbbb", "eth", [], true, false, 0, false, false, ""⟩] ∧
    (dispatchedValues
        [⟨"0xaaa", "eth", [], true, false, 0, false, false, ""⟩,
         ⟨"0xbbb", "eth", [], true, false, 0, false, false, ""⟩]).count
      ⟨"0xaaa", "eth", [], true, false, 0, false, false, ""⟩ = 0 ∧
    (dispatchedValues
        [⟨"0xaaa", "eth", [], true, false, 0, false, false, ""⟩,
         ⟨"0xbbb", "eth", [], true, false, 0, false, false, ""⟩]).count
      ⟨"0xbbb", "eth", [], true, false, 0, false, false, ""⟩ = 2 := by
  decide

/-- C4: the candidate query drops the zero-valued Reviewed condition (GORM
struct conditions use non-zero fields only), so a record with
monitoring = true and reviewed = true — excluded by the claimed
monitoring ∧ ¬reviewed filter — is selected and swept: its checks counter
moves from 0 to 1 instead of staying unchanged. -/
theorem reviewed_record_swept :
    ((⟨"0xrev", "eth", [], true, false, 0, false, true, ""⟩ : Transaction).monitoring = true ∧
     (⟨"0xrev", "eth", [], true, false, 0, false, true, ""⟩ : Transaction).reviewed = true ∧
     (⟨"0xrev", "eth", [], true, false, 0, false, true, ""⟩ : Transaction).checks = 0) ∧
    MonitoredTransactions [⟨"0xrev", "eth", [], true, false, 0, false, true, ""⟩] =
      [⟨"0xrev", "eth", [], true, false, 0, false, true, ""⟩] ∧
    (CheckMonitoredTransactions ["eth"] (some 5) (fun _ => ChainResult.stillPending)
        [⟨"0xrev", "eth", [], true, false, 0, false, true, ""⟩]).map
      (fun r => r.checks) = [1] := by
  decide

end Txwatch
